import Mathlib

/-!
Verification of the store-dashboard CSV ingestion, geocoding and read-path
logic.  Each definition is a shallow embedding of a function from the
repository sources (the import routes, the geocode route, the stores read
route and the CSV upload wizard).  JS numbers are modelled as exact
rationals and JS strings as Lean strings over lists of characters.
-/

namespace StoreDash

/-! ### String helpers modelling the JS primitives used by the code -/

/-- Model of JS String.prototype.trim: drop leading and trailing whitespace. -/
def jsTrim (s : String) : String :=
  String.mk (((s.toList.dropWhile Char.isWhitespace).reverse.dropWhile Char.isWhitespace).reverse)

/-- Model of JS toLowerCase, on the ASCII range that covers the header keywords. -/
def jsLower (s : String) : String := String.mk (s.toList.map Char.toLower)

/-- Substring occurrence test on character lists. -/
def listIncl (pat : List Char) : List Char → Bool
  | [] => pat.isEmpty
  | c :: rest => pat.isPrefixOf (c :: rest) || listIncl pat rest

/-- Model of JS String.prototype.includes. -/
def strIncludes (s pat : String) : Bool := listIncl pat.toList s.toList

/-- Remove the first occurrence of the character c, as the route's
value.replace with a one-character pattern and an empty replacement does. -/
def removeFirstChar (c : Char) : List Char → List Char
  | [] => []
  | x :: xs => if x = c then xs else x :: removeFirstChar c xs

/-- Replace the first occurrence of the character c by r, as the route's
value.replace with one-character pattern and replacement does. -/
def replaceFirstChar (c r : Char) : List Char → List Char
  | [] => []
  | x :: xs => if x = c then r :: xs else x :: replaceFirstChar c r xs

/-- Numeric value of a decimal digit character. -/
def digitVal (c : Char) : ℕ := c.toNat - '0'.toNat

/-- Value of a digit string read left to right. -/
def digitsVal (cs : List Char) : ℕ := cs.foldl (fun a c => 10 * a + digitVal c) 0

/-- Signed digit block of a float-literal exponent: optional sign, then
digits; an absent digit block contributes exponent zero (parseFloat then
simply does not consume the suffix, which has the same value). -/
def expSigned (cs : List Char) : ℤ :=
  match cs with
  | '-' :: rest =>
      if (rest.takeWhile Char.isDigit).isEmpty then 0
      else -(digitsVal (rest.takeWhile Char.isDigit) : ℤ)
  | '+' :: rest =>
      if (rest.takeWhile Char.isDigit).isEmpty then 0
      else (digitsVal (rest.takeWhile Char.isDigit) : ℤ)
  | _ =>
      if (cs.takeWhile Char.isDigit).isEmpty then 0
      else (digitsVal (cs.takeWhile Char.isDigit) : ℤ)

/-- Exponent suffix of a JS float literal: e or E followed by a signed digit
block; anything else contributes exponent zero. -/
def expPart (cs : List Char) : ℤ :=
  match cs with
  | 'e' :: rest => expSigned rest
  | 'E' :: rest => expSigned rest
  | _ => 0

/-- Model of JS parseFloat on decimal notation: leading whitespace, optional
sign, integer digits, optional fraction, optional exponent.  NaN (no digit
consumed) is modelled as none; the Infinity forms do not occur in the CSV
cells this pipeline reads.  The longest valid prefix is parsed and trailing
junk is ignored, as parseFloat does. -/
def parseFloatQ (s : String) : Option ℚ :=
  let cs0 := s.toList.dropWhile Char.isWhitespace
  let sign : ℚ := match cs0 with | '-' :: _ => -1 | _ => 1
  let cs1 := match cs0 with
    | '-' :: rest => rest
    | '+' :: rest => rest
    | _ => cs0
  let intDigits := cs1.takeWhile Char.isDigit
  let cs2 := cs1.dropWhile Char.isDigit
  let fracDigits := match cs2 with | '.' :: rest => rest.takeWhile Char.isDigit | _ => []
  if intDigits.isEmpty && fracDigits.isEmpty then none
  else
    let cs3 := match cs2 with | '.' :: rest => rest.dropWhile Char.isDigit | _ => cs2
    let mantissa : ℚ :=
      mkRat (digitsVal intDigits * 10 ^ fracDigits.length + digitsVal fracDigits)
        (10 ^ fracDigits.length)
    let e := expPart cs3
    let scale : ℚ := if 0 ≤ e then mkRat (10 ^ e.toNat) 1 else mkRat 1 (10 ^ (-e).toNat)
    some (sign * mantissa * scale)

/-! ### parsePercentage (growth import route) and convertToPercentage
(stores read route) -/

/-- The cleaning step of parsePercentage: strip the first percent sign,
turn the first comma into a dot, trim. -/
def cleanPctStr (value : String) : String :=
  jsTrim (String.mk (replaceFirstChar ',' '.' (removeFirstChar '%' value.toList)))

/-- parsePercentage from the growth import route: a blank cell is null,
otherwise the cleaned cell is parsed as a float and divided by 100 so that
a cell of 15.7 percent is stored as the decimal fraction 0.157. -/
def parsePercentage (value : String) : Option ℚ :=
  if value = "" ∨ jsTrim value = "" then none
  else
    match parseFloatQ (cleanPctStr value) with
    | none => none
    | some parsed => some (parsed / 100)

/-- Model of JS Math.round: halves round toward positive infinity. -/
def jsRound (q : ℚ) : ℤ := ⌊q + 1 / 2⌋

/-- convertToPercentage from the stores read route: the stored decimal is
multiplied by 100 and rounded to two decimal places; a missing value stays
null.  The database numeric is modelled as the exact rational it stores. -/
def convertToPercentage (value : Option ℚ) : Option ℚ :=
  match value with
  | none => none
  | some v => some ((jsRound (v * 100 * 100) : ℚ) / 100)

/-! ### Format detection (CSVUploadWizard) -/

/-- The growth keyword set of FORMAT_PATTERNS. -/
def growthPatterns : List String := ["crec%", "%", "growth", "crecimiento"]

/-- The absolute keyword set of FORMAT_PATTERNS. -/
def absolutePatterns : List String := ["ventas", "ordenes", "tickets"]

/-- The three detector outcomes. -/
inductive FormatType where
  | growth
  | absolute
  | unknown
deriving DecidableEq

/-- The DetectedFormat object returned by detectFormat (the description
string is omitted; it is constant per branch). -/
structure DetectedFormat where
  type : FormatType
  confidence : ℚ
  kpiColumns : List String
deriving DecidableEq

/-- Number of (header, pattern) matches counted by one detectFormat
scoring loop. -/
def patternScore (patterns : List String) (hs : List String) : ℕ :=
  (hs.map (fun h => (patterns.filter (fun p => strIncludes h p)).length)).sum

/-- The headers pushed to kpiColumns by one scoring loop, in loop order. -/
def patternCols (patterns : List String) (hs : List String) : List String :=
  hs.flatMap (fun h => (patterns.filter (fun p => strIncludes h p)).map (fun _ => h))

/-- detectFormat from CSVUploadWizard: score the given headers against the
growth and the absolute keyword sets; growth wins at two or more matches,
else absolute at two or more, else unknown; confidence is the match count
over three, capped at one. -/
def detectFormat (lastThreeHeaders : List String) : DetectedFormat :=
  let growthScore := patternScore growthPatterns lastThreeHeaders
  let absoluteScore := patternScore absolutePatterns lastThreeHeaders
  let kpiColumns :=
    patternCols growthPatterns lastThreeHeaders ++ patternCols absolutePatterns lastThreeHeaders
  if 2 ≤ growthScore then
    ⟨FormatType.growth, min (mkRat growthScore 3) 1, kpiColumns⟩
  else if 2 ≤ absoluteScore then
    ⟨FormatType.absolute, min (mkRat absoluteScore 3) 1, kpiColumns⟩
  else
    ⟨FormatType.unknown, 0, lastThreeHeaders⟩

/-- The wizard prepares the detector input from the header row: the last
three headers, each trimmed and lowercased. -/
def lastThreeLowered (headers : List String) : List String :=
  ((headers.reverse.take 3).reverse).map (fun h => jsLower (jsTrim h))

/-- Format detection as invoked by the wizard on a file's header row. -/
def detectFromHeaders (headers : List String) : DetectedFormat :=
  detectFormat (lastThreeLowered headers)

/-! ### Geocoding batch selection (geocode route, optimized version) -/

/-- The three geocoding run modes. -/
inductive GeoMode where
  | smart
  | all
  | batch
deriving DecidableEq

/-- The SMART MODE selection block of the geocode route: smart processes
every pending store when at most 600 are pending and otherwise takes a
slice of the configured batch size; batch always slices; all processes
everything. -/
def selectForGeocoding {α : Type} (mode : GeoMode) (batchSize : ℕ) (stores : List α) :
    List α :=
  match mode with
  | GeoMode.smart => if stores.length ≤ 600 then stores else stores.take batchSize
  | GeoMode.batch => stores.take batchSize
  | GeoMode.all => stores

/-! ### Geocoding a single store (geocode route) -/

/-- A Mapbox feature: center holds the (lon, lat) pair, as the route
destructures it, plus the place name. -/
structure GeoFeature where
  center : ℚ × ℚ
  place_name : String
deriving DecidableEq

/-- The outcome object produced by geocodeAddress. -/
structure GeocodeOutcome where
  success : Bool
  lat : Option ℚ
  lon : Option ℚ
  place_name : Option String
  error : Option String
deriving DecidableEq

/-- The Mexico bounding-box check of geocodeAddress. -/
def inMexicoBounds (lat lon : ℚ) : Bool :=
  decide (14.5 ≤ lat) && decide (lat ≤ 32.7) && decide (-118.4 ≤ lon) && decide (lon ≤ -86.7)

/-- geocodeAddress, from the service response on: take the top-ranked
feature of the response, destructure its center as (lon, lat), and accept
only coordinates inside the Mexico bounds; an empty feature list or an
out-of-bounds pair is a failure carrying an error message. -/
def geocodeTop (features : List GeoFeature) : GeocodeOutcome :=
  match features with
  | [] => ⟨false, none, none, none, some "No results found"⟩
  | feature :: _ =>
    let (lon, lat) := feature.center
    if inMexicoBounds lat lon then
      ⟨true, some lat, some lon, some feature.place_name, none⟩
    else
      ⟨false, none, none, none,
        some ("Location outside Mexico bounds: " ++ toString lat ++ ", " ++ toString lon)⟩

/-- The store fields the geocode route selects. -/
structure GeoStoreRow where
  id : String
  suc_sap : String
  sucursal : String
  calle : String
  colonia : String
  ciudad : String
  estado : String
  cp : String
  lat : Option ℚ
  lon : Option ℚ
deriving DecidableEq

/-- One entry of the runner's per-store results list (the address_used
and mapbox_result fields are omitted). -/
structure GeocodeResultRec where
  store_id : String
  suc_sap : String
  success : Bool
  lat : Option ℚ
  lon : Option ℚ
  error : Option String
deriving DecidableEq

/-- JS truthiness of an optional number: undefined and zero are falsy. -/
def jsTruthyNum : Option ℚ → Bool
  | none => false
  | some v => decide (v ≠ 0)

/-- The runner's per-store write step: coordinates are written to the
store row only when the geocode outcome is a success with truthy
coordinates; otherwise the row is untouched and a failure entry is
recorded.  The database update itself is modelled as succeeding. -/
def applyGeocodeOutcome (store : GeoStoreRow) (g : GeocodeOutcome) :
    GeoStoreRow × GeocodeResultRec :=
  if g.success && jsTruthyNum g.lat && jsTruthyNum g.lon then
    ({ store with lat := g.lat, lon := g.lon },
      ⟨store.id, store.suc_sap, true, g.lat, g.lon, none⟩)
  else
    (store,
      ⟨store.id, store.suc_sap, false, none, none, some (g.error.getD "Geocoding failed")⟩)

/-- Model of Array.prototype.join with the comma-space separator. -/
def joinComma : List String → String
  | [] => ""
  | [x] => x
  | x :: y :: rest => x ++ ", " ++ joinComma (y :: rest)

/-- buildFullAddress from the geocode route: push each truthy (non-empty)
address field, always push the country literal, join with comma-space. -/
def buildFullAddress (store : GeoStoreRow) : String :=
  let parts : List String :=
    (if store.calle ≠ "" then [store.calle] else []) ++
    (if store.colonia ≠ "" then [store.colonia] else []) ++
    (if store.ciudad ≠ "" then [store.ciudad] else []) ++
    (if store.estado ≠ "" then [store.estado] else []) ++
    (if store.cp ≠ "" then [store.cp] else []) ++ ["México"]
  joinComma parts

/-- The runner's empty-address guard: a store is skipped with the
no-address failure entry only when the composed address trims to the
empty string. -/
def emptyAddressGuard (store : GeoStoreRow) : Bool :=
  jsTrim (buildFullAddress store) == ""

/-- The runner issues the external geocoding call exactly when the
empty-address guard does not fire. -/
def makesExternalCall (store : GeoStoreRow) : Bool := !(emptyAddressGuard store)

/-- A store whose five address fields are all empty. -/
def noAddressStore : GeoStoreRow :=
  ⟨"id-0", "S000", "Sucursal Cero", "", "", "", "", "", none, none⟩

/-! ### Existing-store refresh, STEP 4 of the import routes -/

/-- A persisted store row, with the fields STEP 4 can touch. -/
structure StoreRow where
  user_id : String
  suc_sap : String
  format : String
  estado : String
  first_seen : String
  last_seen : String
  updated_at : String
deriving DecidableEq

/-- STEP 4 of the absolute import route: one bulk update setting last_seen
and updated_at on the rows of this user whose code is in the list of
existing codes seen in the CSV; every other field of every row is kept. -/
def updateLastSeenBulk (tbl : List StoreRow) (uid : String) (codes : List String)
    (currentDate nowTs : String) : List StoreRow :=
  tbl.map (fun r =>
    if r.user_id = uid ∧ r.suc_sap ∈ codes then
      { r with last_seen := currentDate, updated_at := nowTs }
    else r)

/-- STEP 4 of the latest growth import route: it builds the
existingStoreUpdates array and logs, but issues no database write, so the
stores table is left exactly as it was. -/
def growthStepFourTable (tbl : List StoreRow) : List StoreRow := tbl

/-- A store known since January, exhibiting C9 on a February re-upload. -/
def januaryStore : StoreRow :=
  ⟨"u1", "S001", "Express", "CDMX", "2025-01-01", "2025-01-01", "2025-01-01T00:00:00Z"⟩

/-! ### Growth import route: resolved columns and the row loop -/

/-- The column indices resolved once per file by getColumnIndex; a field
whose search terms match no header has index -1, as findIndex returns. -/
structure ColumnIndices where
  formato : ℤ
  zona : ℤ
  distrito : ℤ
  suc_sap : ℤ
  sucursal : ℤ
  calle : ℤ
  colonia : ℤ
  municipio : ℤ
  estado : ℤ
  ciudad : ℤ
  cp : ℤ
  revenue_growth : ℤ
  orders_growth : ℤ
  ticket_growth : ℤ
deriving DecidableEq

/-- row[i] on a JS array with the route's empty-string fallback: a
negative or out-of-range index reads as the empty string. -/
def getCell (row : List String) (idx : ℤ) : String :=
  if idx < 0 then "" else row.getD idx.toNat ""

/-- safeTruncate from the route: the empty string stays empty, otherwise
trim and cut to the maximum length. -/
def safeTruncate (value : String) (maxLength : ℕ) : String :=
  if value = "" then "" else String.mk ((jsTrim value).toList.take maxLength)

/-- The trimmed, truncated store identity extracted from one row. -/
structure ProcessedStoreRec where
  suc_sap : String
  formato : String
  zona : String
  distrito : String
  sucursal : String
  calle : String
  colonia : String
  estado : String
  municipio : String
  ciudad : String
  cp : String
deriving DecidableEq

/-- storeData extraction with the per-field length limits of the route. -/
def extractStore (cols : ColumnIndices) (row : List String) : ProcessedStoreRec where
  suc_sap := safeTruncate (getCell row cols.suc_sap) 50
  formato := safeTruncate (getCell row cols.formato) 50
  zona := safeTruncate (getCell row cols.zona) 50
  distrito := safeTruncate (getCell row cols.distrito) 50
  sucursal := safeTruncate (getCell row cols.sucursal) 255
  calle := safeTruncate (getCell row cols.calle) 255
  colonia := safeTruncate (getCell row cols.colonia) 100
  estado := safeTruncate (getCell row cols.estado) 50
  municipio := safeTruncate (getCell row cols.municipio) 50
  ciudad := safeTruncate (getCell row cols.ciudad) 50
  cp := safeTruncate (getCell row cols.cp) 10

/-- The growth metrics extracted from one row, carrying the per-file
year comparison label. -/
structure ProcessedMetricsRec where
  revenue_growth_pct : Option ℚ
  orders_growth_pct : Option ℚ
  ticket_growth_pct : Option ℚ
  year_comparison : String
deriving DecidableEq

/-- metricsData extraction: each KPI is parsed only when its column was
found, and the per-file year comparison label is attached to the row. -/
def extractMetrics (cols : ColumnIndices) (yearComp : String) (row : List String) :
    ProcessedMetricsRec where
  revenue_growth_pct :=
    if cols.revenue_growth ≠ -1 then parsePercentage (getCell row cols.revenue_growth) else none
  orders_growth_pct :=
    if cols.orders_growth ≠ -1 then parsePercentage (getCell row cols.orders_growth) else none
  ticket_growth_pct :=
    if cols.ticket_growth ≠ -1 then parsePercentage (getCell row cols.ticket_growth) else none
  year_comparison := yearComp

/-- A pending insert for a new store: one of STEP 2's newStores entries. -/
structure StoreInsertRec where
  user_id : String
  suc_sap : String
  format : String
  zona : String
  distrito : String
  sucursal : String
  calle : String
  colonia : String
  estado : String
  municipio : String
  ciudad : String
  cp : String
  first_seen : String
  last_seen : String
deriving DecidableEq

/-- One allProcessedRows entry. -/
structure ProcessedRowRec where
  storeData : ProcessedStoreRec
  metricsData : ProcessedMetricsRec
  rowIndex : ℕ
deriving DecidableEq

/-- The whole-file inputs of the row loop: resolved column indices, the
store codes already known for the account, the user id, the upload date
and the per-file year comparison label. -/
structure RowLoopCfg where
  cols : ColumnIndices
  existing : List String
  userId : String
  currentDate : String
  yearComp : String

/-- The loop state: codes seen so far in the file, pending new-store
inserts, processed rows, and the error list. -/
structure LoopState where
  csvSapCodes : List String
  newStores : List StoreInsertRec
  allProcessedRows : List ProcessedRowRec
  errors : List String
deriving DecidableEq

/-- The missing-required-fields error message at a 1-based row number. -/
def missingFieldsMsg (n : ℕ) : String :=
  "Fila " ++ toString n ++ ": Faltan datos requeridos de tienda"

/-- The duplicate-code error message at a 1-based row number. -/
def dupSapMsg (n : ℕ) (code : String) : String :=
  "Fila " ++ toString n ++ ": Código SAP duplicado en CSV: " ++ code

/-- The newStores entry built from a valid, not yet known store. -/
def mkStoreInsert (cfg : RowLoopCfg) (sd : ProcessedStoreRec) : StoreInsertRec :=
  ⟨cfg.userId, sd.suc_sap, sd.formato, sd.zona, sd.distrito, sd.sucursal, sd.calle,
    sd.colonia, sd.estado, sd.municipio, sd.ciudad, sd.cp, cfg.currentDate, cfg.currentDate⟩

/-- One iteration of the row loop of the growth route (the absolute
route's validation and duplicate logic is line-for-line the same): an
empty row is skipped; a row lacking suc_sap, formato or estado gets one
positional error; a code already seen in this file gets one duplicate
error; otherwise the code is recorded, a new-store insert is queued when
the code is not yet known, and the processed row is appended. -/
def stepRow (cfg : RowLoopCfg) (st : LoopState) (i : ℕ) (row : List String) : LoopState :=
  if row = [] then st
  else if (extractStore cfg.cols row).suc_sap = "" ∨ (extractStore cfg.cols row).formato = "" ∨
      (extractStore cfg.cols row).estado = "" then
    { st with errors := st.errors ++ [missingFieldsMsg (i + 1)] }
  else if (extractStore cfg.cols row).suc_sap ∈ st.csvSapCodes then
    { st with errors := st.errors ++ [dupSapMsg (i + 1) (extractStore cfg.cols row).suc_sap] }
  else
    { st with
      csvSapCodes := st.csvSapCodes ++ [(extractStore cfg.cols row).suc_sap],
      newStores :=
        if (extractStore cfg.cols row).suc_sap ∈ cfg.existing then st.newStores
        else st.newStores ++ [mkStoreInsert cfg (extractStore cfg.cols row)],
      allProcessedRows :=
        st.allProcessedRows ++
          [⟨extractStore cfg.cols row, extractMetrics cfg.cols cfg.yearComp row, i⟩] }

/-- The row loop from a given state and 0-based row index. -/
def processRowsFrom (cfg : RowLoopCfg) (st : LoopState) (i : ℕ) :
    List (List String) → LoopState
  | [] => st
  | row :: rest => processRowsFrom cfg (stepRow cfg st i row) (i + 1) rest

/-- The empty loop state. -/
def initState : LoopState := ⟨[], [], [], []⟩

/-- The whole row loop of STEP 2. -/
def processRows (cfg : RowLoopCfg) (rows : List (List String)) : LoopState :=
  processRowsFrom cfg initState 0 rows

/-! ### Year comparison label (growth route) -/

/-- The find predicate of the year-comparison extraction: the header
contains the lowercase pair vs or the capital letter V. -/
def isVsOrV (h : String) : Bool := strIncludes h "vs" || strIncludes h "V"

/-- Four decimal digits start at position p. -/
def digits4At (cs : List Char) (p : ℕ) : Bool :=
  decide (p + 4 ≤ cs.length) && ((cs.drop p).take 4).all Char.isDigit

/-- The two characters at position k spell vs, case-insensitively. -/
def vsAt (cs : List Char) (k : ℕ) : Bool :=
  decide (k + 2 ≤ cs.length) && decide ((cs.getD k ' ').toLower = 'v') &&
    decide ((cs.getD (k + 1) ' ').toLower = 's')

/-- The latest position at or after lo where four digits start. -/
def lastDigits4From (cs : List Char) (lo : ℕ) : Option ℕ :=
  ((List.range cs.length).filter (fun p => decide (lo ≤ p) && digits4At cs p)).getLast?

/-- The latest vs position at or after lo that still leaves four digits
after it, matching the backtracking of the first greedy dot-star. -/
def lastVsFrom (cs : List Char) (lo : ℕ) : Option ℕ :=
  ((List.range cs.length).filter
    (fun k => decide (lo ≤ k) && vsAt cs k && (lastDigits4From cs (k + 2)).isSome)).getLast?

/-- A match of the year-comparison pattern can start at position i. -/
def ycMatchAt (cs : List Char) (i : ℕ) : Bool :=
  digits4At cs i && (lastVsFrom cs (i + 4)).isSome

/-- Model of header.match against the case-insensitive pattern
four-digits dot-star vs dot-star four-digits: the match starts at the
leftmost viable position; both dot-stars are greedy, so the vs is taken
as late as viable and the closing four digits end as late as possible;
the matched substring is returned, or none when nothing matches. -/
def ycMatch (s : String) : Option String :=
  let cs := s.toList
  match (List.range cs.length).find? (fun i => ycMatchAt cs i) with
  | none => none
  | some i =>
    match lastVsFrom cs (i + 4) with
    | none => none
    | some k =>
      match lastDigits4From cs (k + 2) with
      | none => none
      | some p => some (String.mk ((cs.drop i).take (p + 4 - i)))

/-- The per-file year comparison label: the first header containing vs or
V is matched against the pattern; a missing header, a failed match or a
falsy (empty) match falls back to the constant label. -/
def yearComparison (headers : List String) : String :=
  match headers.find? isVsOrV with
  | none => "2025 vs 2024"
  | some h =>
    match ycMatch h with
    | none => "2025 vs 2024"
    | some m => if m = "" then "2025 vs 2024" else m

/-- The growth route's row loop as run on a file: the year comparison
label is computed once from the headers and handed to every row. -/
def growthPipeline (cols : ColumnIndices) (headers : List String) (existing : List String)
    (userId currentDate : String) (rows : List (List String)) : LoopState :=
  processRows ⟨cols, existing, userId, currentDate, yearComparison headers⟩ rows

/-! ### Metric records and the bulk upsert of the metric writer -/

/-- A growth metric record as upserted in STEP 7 of the growth route. -/
structure GrowthMetricRec where
  store_id : String
  period : String
  revenue_growth_pct : Option ℚ
  orders_growth_pct : Option ℚ
  ticket_growth_pct : Option ℚ
  year_comparison : String
deriving DecidableEq

/-- An absolute metric record as upserted by the absolute route. -/
structure AbsoluteMetricRec where
  store_id : String
  period : String
  ventas : Option ℚ
  ordenes : Option ℤ
  tickets : Option ℤ
deriving DecidableEq

/-- The growth conflict key: store_id, period, year_comparison. -/
def growthKey (r : GrowthMetricRec) : String × String × String :=
  (r.store_id, r.period, r.year_comparison)

/-- The absolute conflict key: store_id, period. -/
def absoluteKey (r : AbsoluteMetricRec) : String × String :=
  (r.store_id, r.period)

/-- Map.get on the complete store map, modelled as lookup in an
association list of code-id pairs. -/
def lookupStoreId (m : List (String × String)) (code : String) : Option String :=
  (m.find? (fun p => p.1 == code)).map (fun p => p.2)

/-- One STEP 6 iteration: resolve the row's store id (an unresolved id
yields one positional error and drops the record), and keep a metric
record only when at least one KPI is non-null, attaching the period and
the row's year comparison label. -/
def growthMetricStep (storeMap : List (String × String)) (period : String)
    (acc : List GrowthMetricRec × List String) (e : ProcessedRowRec) :
    List GrowthMetricRec × List String :=
  match lookupStoreId storeMap e.storeData.suc_sap with
  | none =>
    (acc.1, acc.2 ++
      ["Fila " ++ toString (e.rowIndex + 1) ++ ": No se encontró store_id para " ++
        e.storeData.suc_sap])
  | some sid =>
    if e.metricsData.revenue_growth_pct ≠ none ∨ e.metricsData.orders_growth_pct ≠ none ∨
        e.metricsData.ticket_growth_pct ≠ none then
      (acc.1 ++
        [⟨sid, period, e.metricsData.revenue_growth_pct, e.metricsData.orders_growth_pct,
          e.metricsData.ticket_growth_pct, e.metricsData.year_comparison⟩], acc.2)
    else acc

/-- STEP 6 of the growth route over all processed rows. -/
def buildGrowthMetrics (processed : List ProcessedRowRec) (storeMap : List (String × String))
    (period : String) : List GrowthMetricRec × List String :=
  processed.foldl (growthMetricStep storeMap period) ([], [])

/-- Upsert of one record into a table: overwrite the rows sharing its
conflict key, or append it when its key is new — the per-record semantics
of the storage layer's bulk upsert with an onConflict key. -/
def upsertOne {R K : Type} [DecidableEq K] (key : R → K) (t : List R) (r : R) : List R :=
  if key r ∈ t.map key then t.map (fun x => if key x = key r then r else x)
  else t ++ [r]

/-- The bulk upsert: fold the records over the table in order. -/
def upsertBulk {R K : Type} [DecidableEq K] (key : R → K) (t : List R) (rs : List R) :
    List R :=
  rs.foldl (upsertOne key) t

/-- Lookup of the row stored at a conflict key. -/
def findRow {R K : Type} [DecidableEq K] (key : R → K) (t : List R) (k : K) : Option R :=
  t.find? (fun x => decide (key x = k))

/-! ### Concrete inputs used by the witnesses -/

/-- Column indices with suc_sap at 0, formato at 1, estado at 2 and the
revenue growth KPI at 3; everything else unmapped. -/
def witnessCols : ColumnIndices :=
  ⟨1, -1, -1, 0, -1, -1, -1, -1, 2, -1, -1, 3, -1, -1⟩

/-- A row-loop configuration over witnessCols with no known stores. -/
def witnessCfg : RowLoopCfg :=
  ⟨witnessCols, [], "u1", "2025-02-01", "2025 vs 2024"⟩

/-! ### Theorems -/

/-- Math.round stays within one half of its argument. -/
theorem jsRound_close (q : ℚ) : |(jsRound q : ℚ) - q| ≤ 1 / 2 := by
  rw [abs_le]
  constructor
  · have h := Int.lt_floor_add_one (q + 1 / 2)
    unfold jsRound
    push_cast at h ⊢
    linarith
  · have h := Int.floor_le (q + 1 / 2)
    unfold jsRound
    push_cast at h ⊢
    linarith

/-- C1: for a growth-format percentage cell that parses to the number x,
the ingestion path stores the decimal fraction x / 100, and the read path
converts the stored decimal back to a percentage within 0.01 of x; the
witness instantiates this at the cell 15.7 percent, stored as 0.157. -/
theorem c1_percentage_round_trip (s : String) (x : ℚ)
    (hne : jsTrim s ≠ "") (hx : parseFloatQ (cleanPctStr s) = some x) :
    parsePercentage s = some (x / 100) ∧
    ∃ r : ℚ, convertToPercentage (parsePercentage s) = some r ∧ |r - x| ≤ 1 / 100 := by
  have hcond : ¬(s = "" ∨ jsTrim s = "") := by
    rintro (rfl | h)
    · exact hne rfl
    · exact hne h
  have hp : parsePercentage s = some (x / 100) := by
    unfold parsePercentage
    rw [if_neg hcond, hx]
  refine ⟨hp, (jsRound (x / 100 * 100 * 100) : ℚ) / 100, ?_, ?_⟩
  · rw [hp]; rfl
  · have h100 : x / 100 * 100 * 100 = 100 * x := by ring
    rw [h100]
    have hb := jsRound_close (100 * x)
    have heq : (jsRound (100 * x) : ℚ) / 100 - x = ((jsRound (100 * x) : ℚ) - 100 * x) / 100 := by
      ring
    rw [heq, abs_div]
    have habs : |(100 : ℚ)| = 100 := by norm_num
    rw [habs]
    linarith

/-- Witness for C1 at the concrete cell 15.7 percent. -/
theorem c1_percentage_round_trip_witness :
    jsTrim "15.7%" ≠ "" ∧ parseFloatQ (cleanPctStr "15.7%") = some (157 / 10) ∧
    parsePercentage "15.7%" = some (157 / 1000) ∧
    ∃ r : ℚ, convertToPercentage (parsePercentage "15.7%") = some r ∧
      |r - 157 / 10| ≤ 1 / 100 := by
  have h1 : jsTrim "15.7%" ≠ "" := by decide
  have h2 : parseFloatQ (cleanPctStr "15.7%") = some (157 / 10) := by
    with_unfolding_all decide
  have h := c1_percentage_round_trip "15.7%" (157 / 10) h1 h2
  refine ⟨h1, h2, ?_, h.2⟩
  rw [h.1]
  norm_num

/-- C5: the detector classifies from the last three headers, trimmed and
lowercased: growth at two or more growth-keyword matches (growth checked
first, so it takes priority), else absolute at two or more
absolute-keyword matches, else unknown; confidence is the match count over
three capped at one, and zero for unknown.  The spec's three example
header rows evaluate as claimed. -/
theorem c5_format_detection :
    (∀ headers : List String,
      (detectFromHeaders headers).type =
        (if 2 ≤ patternScore growthPatterns (lastThreeLowered headers) then FormatType.growth
         else if 2 ≤ patternScore absolutePatterns (lastThreeLowered headers) then
           FormatType.absolute
         else FormatType.unknown) ∧
      (detectFromHeaders headers).confidence =
        (if 2 ≤ patternScore growthPatterns (lastThreeLowered headers) then
           min (mkRat (patternScore growthPatterns (lastThreeLowered headers)) 3) 1
         else if 2 ≤ patternScore absolutePatterns (lastThreeLowered headers) then
           min (mkRat (patternScore absolutePatterns (lastThreeLowered headers)) 3) 1
         else 0)) ∧
    (detectFromHeaders ["Ventas", "Ordenes", "Tickets"]).type = FormatType.absolute ∧
    (detectFromHeaders ["Ventas", "Ordenes", "Tickets"]).confidence = 1 ∧
    (detectFromHeaders ["Crec%", "Growth", "Revenue"]).type = FormatType.growth ∧
    (detectFromHeaders ["Foo", "Bar", "Baz"]).type = FormatType.unknown ∧
    (detectFromHeaders ["Foo", "Bar", "Baz"]).confidence = 0 := by
  refine ⟨fun headers => ⟨?_, ?_⟩, ?_, ?_, ?_, ?_, ?_⟩
  · simp only [detectFromHeaders, detectFormat]
    split_ifs <;> rfl
  · simp only [detectFromHeaders, detectFormat]
    split_ifs <;> rfl
  · with_unfolding_all decide
  · with_unfolding_all decide
  · with_unfolding_all decide
  · with_unfolding_all decide
  · with_unfolding_all decide

/-- C6 counterexample: with 650 pending stores, smart mode and a
configured batch size of 700, the selection has 650 elements, not the
configured 700, so the claim that above 600 pending stores the runner
selects exactly the configured batch size fails as stated. -/
theorem c6_exact_batch_counterexample :
    600 < (List.replicate 650 (0 : ℕ)).length ∧
    (selectForGeocoding GeoMode.smart 700 (List.replicate 650 (0 : ℕ))).length = 650 ∧
    (650 : ℕ) ≠ 700 := by
  have hlen : (List.replicate 650 (0 : ℕ)).length = 650 := List.length_replicate 650 0
  have hgt : ¬ (List.replicate 650 (0 : ℕ)).length ≤ 600 := by rw [hlen]; norm_num
  refine ⟨by rw [hlen]; norm_num, ?_, by decide⟩
  simp only [selectForGeocoding]
  rw [if_neg hgt, List.length_take, hlen]
  omega

/-- C6 amended: smart mode selects every pending store when at most 600
are pending, and min(batchSize, pending) of them otherwise — exactly the
configured batch size whenever that size does not exceed the pending
count. -/
theorem c6_smart_selection {α : Type} (stores : List α) (batchSize : ℕ) :
    (stores.length ≤ 600 → selectForGeocoding GeoMode.smart batchSize stores = stores) ∧
    (600 < stores.length →
      (selectForGeocoding GeoMode.smart batchSize stores).length =
        min batchSize stores.length) := by
  constructor
  · intro h
    simp only [selectForGeocoding]
    rw [if_pos h]
  · intro h
    have hnot : ¬ stores.length ≤ 600 := not_le.mpr h
    simp only [selectForGeocoding]
    rw [if_neg hnot, List.length_take]

/-- Witness for C6 amended: 550 pending stores are all selected; 650
pending stores with batch size 100 yield a selection of exactly 100. -/
theorem c6_smart_selection_witness :
    ((List.replicate 550 (0 : ℕ)).length ≤ 600 ∧
      selectForGeocoding GeoMode.smart 100 (List.replicate 550 (0 : ℕ)) =
        List.replicate 550 0) ∧
    (600 < (List.replicate 650 (0 : ℕ)).length ∧
      (selectForGeocoding GeoMode.smart 100 (List.replicate 650 (0 : ℕ))).length = 100) := by
  constructor
  · have h : (List.replicate 550 (0 : ℕ)).length ≤ 600 := by
      rw [List.length_replicate]
      norm_num
    exact ⟨h, (c6_smart_selection _ 100).1 h⟩
  · have h : 600 < (List.replicate 650 (0 : ℕ)).length := by
      rw [List.length_replicate]
      norm_num
    refine ⟨h, ?_⟩
    rw [(c6_smart_selection _ 100).2 h, List.length_replicate, Nat.min_def]
    norm_num

/-- C7: with a nonempty service response, the top feature's (lon, lat)
center is accepted and written to the store's coordinate fields exactly
when the latitude lies in [14.5, 32.7] and the longitude in
[-118.4, -86.7]; an out-of-bounds pair is recorded as that store's
failure and the store row is untouched. -/
theorem c7_bounding_box (store : GeoStoreRow) (f : GeoFeature) (rest : List GeoFeature) :
    (inMexicoBounds f.center.2 f.center.1 = true →
      (applyGeocodeOutcome store (geocodeTop (f :: rest))).1.lat = some f.center.2 ∧
      (applyGeocodeOutcome store (geocodeTop (f :: rest))).1.lon = some f.center.1 ∧
      (applyGeocodeOutcome store (geocodeTop (f :: rest))).2.success = true) ∧
    (inMexicoBounds f.center.2 f.center.1 = false →
      (applyGeocodeOutcome store (geocodeTop (f :: rest))).1 = store ∧
      (applyGeocodeOutcome store (geocodeTop (f :: rest))).2.success = false ∧
      (applyGeocodeOutcome store (geocodeTop (f :: rest))).2.error ≠ none) := by
  obtain ⟨⟨lon, lat⟩, pname⟩ := f
  constructor
  · intro hb
    have hbp := hb
    simp only [inMexicoBounds, Bool.and_eq_true, decide_eq_true_eq] at hbp
    have hlat : lat ≠ 0 := by
      have : (0 : ℚ) < lat := lt_of_lt_of_le (by norm_num) hbp.1.1.1
      exact ne_of_gt this
    have hlon : lon ≠ 0 := by
      have : lon < 0 := lt_of_le_of_lt hbp.2 (by norm_num)
      exact ne_of_lt this
    simp [geocodeTop, hb, applyGeocodeOutcome, jsTruthyNum, hlat, hlon]
  · intro hb
    simp [geocodeTop, hb, applyGeocodeOutcome, jsTruthyNum]

/-- Witness for C7 at an in-bounds feature (Mexico City) and an
out-of-bounds feature (New York). -/
theorem c7_bounding_box_witness :
    (inMexicoBounds (19.43 : ℚ) (-99.13) = true ∧
      (applyGeocodeOutcome noAddressStore
        (geocodeTop [⟨((-99.13 : ℚ), (19.43 : ℚ)), "Mexico City"⟩])).1.lat =
          some (19.43 : ℚ) ∧
      (applyGeocodeOutcome noAddressStore
        (geocodeTop [⟨((-99.13 : ℚ), (19.43 : ℚ)), "Mexico City"⟩])).1.lon =
          some ((-99.13 : ℚ)) ∧
      (applyGeocodeOutcome noAddressStore
        (geocodeTop [⟨((-99.13 : ℚ), (19.43 : ℚ)), "Mexico City"⟩])).2.success = true) ∧
    (inMexicoBounds (40.71 : ℚ) (-74.0) = false ∧
      (applyGeocodeOutcome noAddressStore
        (geocodeTop [⟨((-74.0 : ℚ), (40.71 : ℚ)), "New York"⟩])).1 = noAddressStore ∧
      (applyGeocodeOutcome noAddressStore
        (geocodeTop [⟨((-74.0 : ℚ), (40.71 : ℚ)), "New York"⟩])).2.success = false ∧
      (applyGeocodeOutcome noAddressStore
        (geocodeTop [⟨((-74.0 : ℚ), (40.71 : ℚ)), "New York"⟩])).2.error ≠ none) := by
  constructor
  · have hb : inMexicoBounds (19.43 : ℚ) (-99.13) = true := by with_unfolding_all decide
    exact ⟨hb, (c7_bounding_box noAddressStore ⟨((-99.13 : ℚ), (19.43 : ℚ)), "Mexico City"⟩ []).1 hb⟩
  · have hb : inMexicoBounds (40.71 : ℚ) (-74.0) = false := by with_unfolding_all decide
    exact ⟨hb, (c7_bounding_box noAddressStore ⟨((-74.0 : ℚ), (40.71 : ℚ)), "New York"⟩ []).2 hb⟩

/-- Helper: dropWhile of a list holding an element that fails the
predicate is not empty. -/
theorem dropWhile_ne_nil_of_mem {α : Type} (p : α → Bool) :
    ∀ {l : List α} {c : α}, c ∈ l → p c = false → l.dropWhile p ≠ [] := by
  intro l
  induction l with
  | nil => intro c hc; cases hc
  | cons x xs ih =>
    intro c hc hpc
    rw [List.dropWhile_cons]
    by_cases hx : p x = true
    · simp only [hx, if_true]
      rcases List.mem_cons.mp hc with rfl | hmem
      · rw [hx] at hpc; cases hpc
      · exact ih hmem hpc
    · simp only [hx, if_false]
      exact List.cons_ne_nil x xs

/-- Helper: an element failing the predicate survives dropWhile. -/
theorem mem_dropWhile_of_mem {α : Type} (p : α → Bool) :
    ∀ {l : List α} {c : α}, c ∈ l → p c = false → c ∈ l.dropWhile p := by
  intro l
  induction l with
  | nil => intro c hc; cases hc
  | cons x xs ih =>
    intro c hc hpc
    rw [List.dropWhile_cons]
    by_cases hx : p x = true
    · simp only [hx, if_true]
      rcases List.mem_cons.mp hc with rfl | hmem
      · rw [hx] at hpc; cases hpc
      · exact ih hmem hpc
    · simp only [hx, if_false]
      exact hc

/-- Helper: a string containing a non-whitespace character does not trim
to the empty string. -/
theorem jsTrim_ne_empty_of_mem {s : String} {c : Char}
    (hc : c ∈ s.toList) (hw : c.isWhitespace = false) : jsTrim s ≠ "" := by
  intro h
  have hdata : (jsTrim s).toList = [] := by rw [h]; rfl
  unfold jsTrim at hdata
  have h1 : c ∈ s.toList.dropWhile Char.isWhitespace := mem_dropWhile_of_mem _ hc hw
  have h2 : c ∈ (s.toList.dropWhile Char.isWhitespace).reverse := List.mem_reverse.mpr h1
  have h3 := dropWhile_ne_nil_of_mem Char.isWhitespace h2 hw
  have h4 : ((s.toList.dropWhile Char.isWhitespace).reverse.dropWhile Char.isWhitespace).reverse
      = [] := hdata
  rw [List.reverse_eq_nil_iff] at h4
  exact h3 h4

/-- Helper: the composed address always contains the letter M of the
appended country literal. -/
theorem mem_M_joinComma : ∀ parts : List String, 'M' ∈ (joinComma (parts ++ ["México"])).toList := by
  intro parts
  induction parts with
  | nil => decide
  | cons p ps ih =>
    have hne : ∃ y rest, ps ++ ["México"] = y :: rest := by
      cases hps : ps ++ ["México"] with
      | nil => exact absurd hps (List.append_ne_nil_of_right_ne_nil ps (by decide))
      | cons y rest => exact ⟨y, rest, rfl⟩
    obtain ⟨y, rest, hy⟩ := hne
    show 'M' ∈ (joinComma ((p :: ps) ++ ["México"])).toList
    rw [List.cons_append, hy, joinComma]
    rw [← hy]
    have : (p ++ ", " ++ joinComma (ps ++ ["México"])).toList
        = (p ++ ", ").toList ++ (joinComma (ps ++ ["México"])).toList := by
      simp [String.toList, String.data_append]
    rw [this]
    exact List.mem_append.mpr (Or.inr ih)

/-- C8: a store with every address field empty still composes the address
"México" (the country literal is appended unconditionally), so the
empty-address guard does not fire and the runner does issue an external
geocoding call for it; indeed the guard can never fire for any store, so
its no-address failure branch is unreachable. -/
theorem c8_no_address_still_calls :
    buildFullAddress noAddressStore = "México" ∧
    emptyAddressGuard noAddressStore = false ∧
    makesExternalCall noAddressStore = true ∧
    ∀ store : GeoStoreRow, emptyAddressGuard store = false := by
  refine ⟨by decide, by decide, by decide, ?_⟩
  intro store
  have hM : 'M' ∈ (buildFullAddress store).toList := by
    unfold buildFullAddress
    exact mem_M_joinComma _
  have h := jsTrim_ne_empty_of_mem hM (by decide)
  unfold emptyAddressGuard
  exact beq_eq_false_iff_ne.mpr h

/-- C9: on a February re-upload containing the already-known store code,
the absolute route's STEP 4 bulk update refreshes last_seen and updated_at
while preserving first_seen, the row count and every other field; but the
latest growth route's STEP 4 issues no write at all, leaving last_seen at
its stale January value — the growth route does not refresh last_seen as
the claim (and its own log message) says. -/
theorem c9_growth_route_drops_refresh :
    updateLastSeenBulk [januaryStore] "u1" ["S001"] "2025-02-01" "2025-02-01T12:00:00Z" =
      [{ januaryStore with last_seen := "2025-02-01", updated_at := "2025-02-01T12:00:00Z" }] ∧
    ((updateLastSeenBulk [januaryStore] "u1" ["S001"] "2025-02-01"
        "2025-02-01T12:00:00Z").map StoreRow.first_seen = ["2025-01-01"]) ∧
    growthStepFourTable [januaryStore] = [januaryStore] ∧
    ((growthStepFourTable [januaryStore]).map StoreRow.last_seen = ["2025-01-01"]) ∧
    "2025-01-01" ≠ "2025-02-01" := by
  refine ⟨by decide, by decide, rfl, by decide, by decide⟩

/-- C3: a nonempty row whose trimmed, truncated suc_sap, formato or
estado is empty contributes exactly one positional error naming its
1-based index and nothing else — the seen codes, the store output and the
metric output are unchanged — and the loop then continues with the
remaining rows from the next index. -/
theorem c3_missing_required_row (cfg : RowLoopCfg) (st : LoopState) (i : ℕ)
    (row : List String) (rest : List (List String)) (hrow : row ≠ [])
    (hmiss : (extractStore cfg.cols row).suc_sap = "" ∨
      (extractStore cfg.cols row).formato = "" ∨ (extractStore cfg.cols row).estado = "") :
    stepRow cfg st i row = { st with errors := st.errors ++ [missingFieldsMsg (i + 1)] } ∧
    processRowsFrom cfg st i (row :: rest) =
      processRowsFrom cfg { st with errors := st.errors ++ [missingFieldsMsg (i + 1)] }
        (i + 1) rest := by
  have hstep : stepRow cfg st i row =
      { st with errors := st.errors ++ [missingFieldsMsg (i + 1)] } := by
    unfold stepRow
    rw [if_neg hrow, if_pos hmiss]
  refine ⟨hstep, ?_⟩
  show processRowsFrom cfg (stepRow cfg st i row) (i + 1) rest = _
  rw [hstep]

/-- Witness for C3: the row with an empty estado cell is rejected with
the positional error for row 1 and the loop proceeds to the second row. -/
theorem c3_missing_required_row_witness :
    (["S1", "Express", ""] : List String) ≠ [] ∧
    ((extractStore witnessCols ["S1", "Express", ""]).suc_sap = "" ∨
      (extractStore witnessCols ["S1", "Express", ""]).formato = "" ∨
      (extractStore witnessCols ["S1", "Express", ""]).estado = "") ∧
    (stepRow witnessCfg initState 0 ["S1", "Express", ""] =
      { initState with errors := initState.errors ++ [missingFieldsMsg (0 + 1)] } ∧
    processRowsFrom witnessCfg initState 0
        [["S1", "Express", ""], ["S2", "Mega", "Jalisco"]] =
      processRowsFrom witnessCfg
        { initState with errors := initState.errors ++ [missingFieldsMsg (0 + 1)] } (0 + 1)
        [["S2", "Mega", "Jalisco"]]) := by
  have h1 : (["S1", "Express", ""] : List String) ≠ [] := by decide
  have h2 : (extractStore witnessCols ["S1", "Express", ""]).suc_sap = "" ∨
      (extractStore witnessCols ["S1", "Express", ""]).formato = "" ∨
      (extractStore witnessCols ["S1", "Express", ""]).estado = "" := by decide
  exact ⟨h1, h2, c3_missing_required_row witnessCfg initState 0 ["S1", "Express", ""]
    [["S2", "Mega", "Jalisco"]] h1 h2⟩

/-- C4: a nonempty row with all required fields present whose code was
already seen in this file contributes exactly one duplicate-code error
naming its 1-based index and the repeated code, and nothing else: the
seen codes, the store output and the metric output — including the first
occurrence's data accumulated in the state — are unchanged, and the loop
continues with the remaining rows. -/
theorem c4_duplicate_code_row (cfg : RowLoopCfg) (st : LoopState) (i : ℕ)
    (row : List String) (rest : List (List String)) (hrow : row ≠ [])
    (hfields : ¬((extractStore cfg.cols row).suc_sap = "" ∨
      (extractStore cfg.cols row).formato = "" ∨ (extractStore cfg.cols row).estado = ""))
    (hdup : (extractStore cfg.cols row).suc_sap ∈ st.csvSapCodes) :
    stepRow cfg st i row =
      { st with errors :=
        st.errors ++ [dupSapMsg (i + 1) (extractStore cfg.cols row).suc_sap] } ∧
    processRowsFrom cfg st i (row :: rest) =
      processRowsFrom cfg
        { st with errors :=
          st.errors ++ [dupSapMsg (i + 1) (extractStore cfg.cols row).suc_sap] }
        (i + 1) rest := by
  have hstep : stepRow cfg st i row =
      { st with errors :=
        st.errors ++ [dupSapMsg (i + 1) (extractStore cfg.cols row).suc_sap] } := by
    unfold stepRow
    rw [if_neg hrow, if_neg hfields, if_pos hdup]
  refine ⟨hstep, ?_⟩
  show processRowsFrom cfg (stepRow cfg st i row) (i + 1) rest = _
  rw [hstep]

/-- Witness for C4: in a two-row file repeating the code S1, the second
row is rejected with the duplicate error for row 2 while the first
occurrence's data stands in every output. -/
theorem c4_duplicate_code_row_witness :
    (["S1", "Mega", "Jalisco"] : List String) ≠ [] ∧
    ¬((extractStore witnessCols ["S1", "Mega", "Jalisco"]).suc_sap = "" ∨
      (extractStore witnessCols ["S1", "Mega", "Jalisco"]).formato = "" ∨
      (extractStore witnessCols ["S1", "Mega", "Jalisco"]).estado = "") ∧
    (extractStore witnessCols ["S1", "Mega", "Jalisco"]).suc_sap ∈
      (stepRow witnessCfg initState 0 ["S1", "Express", "CDMX"]).csvSapCodes ∧
    stepRow witnessCfg (stepRow witnessCfg initState 0 ["S1", "Express", "CDMX"]) 1
        ["S1", "Mega", "Jalisco"] =
      { stepRow witnessCfg initState 0 ["S1", "Express", "CDMX"] with
        errors := (stepRow witnessCfg initState 0 ["S1", "Express", "CDMX"]).errors ++
          [dupSapMsg (1 + 1) (extractStore witnessCols ["S1", "Mega", "Jalisco"]).suc_sap] } ∧
    (processRows witnessCfg [["S1", "Express", "CDMX"], ["S1", "Mega", "Jalisco"]]).csvSapCodes =
      ["S1"] ∧
    (processRows witnessCfg [["S1", "Express", "CDMX"], ["S1", "Mega", "Jalisco"]]).errors =
      [dupSapMsg 2 "S1"] ∧
    ((processRows witnessCfg
        [["S1", "Express", "CDMX"], ["S1", "Mega", "Jalisco"]]).allProcessedRows.map
      (fun e => e.storeData.suc_sap)) = ["S1"] := by
  have h1 : (["S1", "Mega", "Jalisco"] : List String) ≠ [] := by decide
  have h2 : ¬((extractStore witnessCols ["S1", "Mega", "Jalisco"]).suc_sap = "" ∨
      (extractStore witnessCols ["S1", "Mega", "Jalisco"]).formato = "" ∨
      (extractStore witnessCols ["S1", "Mega", "Jalisco"]).estado = "") := by decide
  have h3 : (extractStore witnessCols ["S1", "Mega", "Jalisco"]).suc_sap ∈
      (stepRow witnessCfg initState 0 ["S1", "Express", "CDMX"]).csvSapCodes := by
    with_unfolding_all decide
  have h := c4_duplicate_code_row witnessCfg
    (stepRow witnessCfg initState 0 ["S1", "Express", "CDMX"]) 1 ["S1", "Mega", "Jalisco"]
    [] h1 h2 h3
  refine ⟨h1, h2, h3, h.1, ?_, ?_, ?_⟩
  · with_unfolding_all decide
  · with_unfolding_all decide
  · with_unfolding_all decide

/-- Helper: a processed row emitted by one loop step either was already
in the state or carries the configuration's year comparison label. -/
theorem stepRow_processed_yc (cfg : RowLoopCfg) (st : LoopState) (i : ℕ)
    (row : List String) :
    ∀ e ∈ (stepRow cfg st i row).allProcessedRows,
      e ∈ st.allProcessedRows ∨ e.metricsData.year_comparison = cfg.yearComp := by
  intro e he
  unfold stepRow at he
  split_ifs at he
  · exact Or.inl he
  · exact Or.inl he
  · exact Or.inl he
  · rcases List.mem_append.mp he with h1 | h2
    · exact Or.inl h1
    · rcases List.mem_singleton.mp h2 with rfl
      exact Or.inr rfl
  · rcases List.mem_append.mp he with h1 | h2
    · exact Or.inl h1
    · rcases List.mem_singleton.mp h2 with rfl
      exact Or.inr rfl

/-- Helper: over a whole run of the loop, every processed row either was
in the initial state or carries the configuration's label. -/
theorem processRowsFrom_processed_yc (cfg : RowLoopCfg) :
    ∀ (rows : List (List String)) (st : LoopState) (i : ℕ),
      ∀ e ∈ (processRowsFrom cfg st i rows).allProcessedRows,
        e ∈ st.allProcessedRows ∨ e.metricsData.year_comparison = cfg.yearComp := by
  intro rows
  induction rows with
  | nil => intro st i e he; exact Or.inl he
  | cons row rest ih =>
    intro st i e he
    rcases ih (stepRow cfg st i row) (i + 1) e he with hmem | hyc
    · exact stepRow_processed_yc cfg st i row e hmem
    · exact Or.inr hyc

/-- Helper: one STEP 6 iteration preserves the invariant that every
emitted metric record carries the label yc. -/
theorem growthMetricStep_yc (m : List (String × String)) (d yc : String)
    (acc : List GrowthMetricRec × List String) (e : ProcessedRowRec)
    (hacc : ∀ rec ∈ acc.1, rec.year_comparison = yc)
    (he : e.metricsData.year_comparison = yc) :
    ∀ rec ∈ (growthMetricStep m d acc e).1, rec.year_comparison = yc := by
  intro rec hrec
  unfold growthMetricStep at hrec
  cases hlk : lookupStoreId m e.storeData.suc_sap with
  | none =>
    rw [hlk] at hrec
    exact hacc rec hrec
  | some sid =>
    rw [hlk] at hrec
    split_ifs at hrec
    · rcases List.mem_append.mp hrec with h1 | h2
      · exact hacc rec h1
      · rcases List.mem_singleton.mp h2 with rfl
        exact he
    · exact hacc rec hrec

/-- Helper: STEP 6 only emits metric records carrying the label yc when
every processed row carries it. -/
theorem buildGrowthMetrics_yc (m : List (String × String)) (d yc : String) :
    ∀ (processed : List ProcessedRowRec) (acc : List GrowthMetricRec × List String),
      (∀ rec ∈ acc.1, rec.year_comparison = yc) →
      (∀ e ∈ processed, e.metricsData.year_comparison = yc) →
      ∀ rec ∈ (processed.foldl (growthMetricStep m d) acc).1, rec.year_comparison = yc := by
  intro processed
  induction processed with
  | nil => intro acc hacc _ rec hrec; exact hacc rec hrec
  | cons e rest ih =>
    intro acc hacc hall rec hrec
    exact ih (growthMetricStep m d acc e)
      (growthMetricStep_yc m d yc acc e hacc (hall e (List.mem_cons_self e rest)))
      (fun x hx => hall x (List.mem_cons_of_mem e hx)) rec hrec

/-- C10: the year comparison label is computed once per file from the
headers — the first header containing vs or V is matched against the
four-digits vs four-digits pattern — and that single label is attached to
every metric record of the upload and is a component of each record's
upsert conflict key; when no header is found or the found header does not
match, the constant fallback label is the one attached. -/
theorem c10_year_comparison_once (cols : ColumnIndices) (headers existing : List String)
    (uid d : String) (rows : List (List String)) (storeMap : List (String × String)) :
    (∀ rec ∈ (buildGrowthMetrics
        (growthPipeline cols headers existing uid d rows).allProcessedRows storeMap d).1,
      rec.year_comparison = yearComparison headers ∧
      growthKey rec = (rec.store_id, rec.period, yearComparison headers)) ∧
    (headers.find? isVsOrV = none → yearComparison headers = "2025 vs 2024") ∧
    (∀ h, headers.find? isVsOrV = some h → ycMatch h = none →
      yearComparison headers = "2025 vs 2024") := by
  refine ⟨?_, ?_, ?_⟩
  · intro rec hrec
    have hall : ∀ e ∈ (growthPipeline cols headers existing uid d rows).allProcessedRows,
        e.metricsData.year_comparison = yearComparison headers := by
      intro e he
      rcases processRowsFrom_processed_yc ⟨cols, existing, uid, d, yearComparison headers⟩
        rows initState 0 e he with h1 | h2
      · cases h1
      · exact h2
    have hy := buildGrowthMetrics_yc storeMap d (yearComparison headers)
      (growthPipeline cols headers existing uid d rows).allProcessedRows ([], [])
      (fun r hr => absurd hr (List.not_mem_nil r)) hall rec hrec
    refine ⟨hy, ?_⟩
    unfold growthKey
    rw [hy]
  · intro hf
    unfold yearComparison
    rw [hf]
  · intro h hf hm
    unfold yearComparison
    rw [hf]
    dsimp only
    rw [hm]

set_option maxRecDepth 8000 in
/-- Witness for C10: a header row with no vs or V header falls back to
the constant label, and the single metric record produced from a one-row
file carries exactly that label in its conflict key. -/
theorem c10_year_comparison_once_witness :
    (["Suc SAP", "Formato", "Estado", "Crec%"].find? isVsOrV = none) ∧
    ((⟨"id-1", "2025-02-01", some (157 / 1000), none, none, "2025 vs 2024"⟩ :
        GrowthMetricRec) ∈
      (buildGrowthMetrics
        (growthPipeline witnessCols ["Suc SAP", "Formato", "Estado", "Crec%"] [] "u1"
          "2025-02-01" [["S1", "Express", "CDMX", "15.7%"]]).allProcessedRows
        [("S1", "id-1")] "2025-02-01").1) ∧
    yearComparison ["Suc SAP", "Formato", "Estado", "Crec%"] = "2025 vs 2024" ∧
    growthKey (⟨"id-1", "2025-02-01", some (157 / 1000), none, none, "2025 vs 2024"⟩ :
        GrowthMetricRec) =
      ("id-1", "2025-02-01", yearComparison ["Suc SAP", "Formato", "Estado", "Crec%"]) := by
  have hf : (["Suc SAP", "Formato", "Estado", "Crec%"].find? isVsOrV = none) := by decide
  have hth := c10_year_comparison_once witnessCols ["Suc SAP", "Formato", "Estado", "Crec%"]
    [] "u1" "2025-02-01" [["S1", "Express", "CDMX", "15.7%"]] [("S1", "id-1")]
  have hmem : (⟨"id-1", "2025-02-01", some (157 / 1000), none, none, "2025 vs 2024"⟩ :
      GrowthMetricRec) ∈
      (buildGrowthMetrics
        (growthPipeline witnessCols ["Suc SAP", "Formato", "Estado", "Crec%"] [] "u1"
          "2025-02-01" [["S1", "Express", "CDMX", "15.7%"]]).allProcessedRows
        [("S1", "id-1")] "2025-02-01").1 := by
    with_unfolding_all decide
  have hrec := hth.1 _ hmem
  exact ⟨hf, hmem, hrec.1.symm, hrec.2⟩

/-- upsertBulk unfolding on a cons. -/
theorem upsertBulk_cons {R K : Type} [DecidableEq K] (key : R → K) (t : List R) (s : R)
    (rs : List R) : upsertBulk key t (s :: rs) = upsertBulk key (upsertOne key t s) rs := rfl

/-- Overwriting preserves the row count when the key is present. -/
theorem upsertOne_length_of_mem {R K : Type} [DecidableEq K] (key : R → K) {t : List R}
    {r : R} (h : key r ∈ t.map key) : (upsertOne key t r).length = t.length := by
  unfold upsertOne
  rw [if_pos h, List.length_map]

/-- Overwriting preserves the key sequence when the key is present. -/
theorem upsertOne_map_key_of_mem {R K : Type} [DecidableEq K] (key : R → K) {t : List R}
    {r : R} (h : key r ∈ t.map key) : (upsertOne key t r).map key = t.map key := by
  unfold upsertOne
  rw [if_pos h, List.map_map]
  apply List.map_congr_left
  intro x _
  by_cases hk : key x = key r
  · simp [Function.comp, hk]
  · simp [Function.comp, hk]

/-- The upserted record's key is present afterwards. -/
theorem key_mem_upsertOne {R K : Type} [DecidableEq K] (key : R → K) (t : List R) (r : R) :
    key r ∈ (upsertOne key t r).map key := by
  by_cases h : key r ∈ t.map key
  · rw [upsertOne_map_key_of_mem key h]
    exact h
  · unfold upsertOne
    rw [if_neg h, List.map_append]
    exact List.mem_append.mpr (Or.inr (by simp))

/-- Keys already present stay present through one upsert. -/
theorem mem_key_upsertOne {R K : Type} [DecidableEq K] (key : R → K) {t : List R} {k : K}
    (r : R) (h : k ∈ t.map key) : k ∈ (upsertOne key t r).map key := by
  by_cases hm : key r ∈ t.map key
  · rw [upsertOne_map_key_of_mem key hm]
    exact h
  · unfold upsertOne
    rw [if_neg hm, List.map_append]
    exact List.mem_append.mpr (Or.inl h)

/-- Keys already present stay present through a bulk upsert. -/
theorem mem_key_upsertBulk {R K : Type} [DecidableEq K] (key : R → K) {k : K} (rs : List R) :
    ∀ {t : List R}, k ∈ t.map key → k ∈ (upsertBulk key t rs).map key := by
  induction rs with
  | nil => intro t h; exact h
  | cons s rs ih =>
    intro t h
    rw [upsertBulk_cons]
    exact ih (mem_key_upsertOne key s h)

/-- After a bulk upsert every record of the batch has its key present. -/
theorem keys_present_upsertBulk {R K : Type} [DecidableEq K] (key : R → K) (rs : List R) :
    ∀ (t : List R) (r : R), r ∈ rs → key r ∈ (upsertBulk key t rs).map key := by
  induction rs with
  | nil => intro t r hr; cases hr
  | cons s rs ih =>
    intro t r hr
    rw [upsertBulk_cons]
    rcases List.mem_cons.mp hr with rfl | hmem
    · exact mem_key_upsertBulk key rs (key_mem_upsertOne key t r)
    · exact ih (upsertOne key t s) r hmem

/-- A bulk upsert whose keys are all already present keeps the row count
and the key sequence. -/
theorem upsertBulk_length_of_present {R K : Type} [DecidableEq K] (key : R → K)
    (rs : List R) :
    ∀ t : List R, (∀ r ∈ rs, key r ∈ t.map key) →
      (upsertBulk key t rs).length = t.length ∧
      (upsertBulk key t rs).map key = t.map key := by
  induction rs with
  | nil => intro t _; exact ⟨rfl, rfl⟩
  | cons s rs ih =>
    intro t h
    have hs : key s ∈ t.map key := h s (List.mem_cons_self s rs)
    have hrest : ∀ r ∈ rs, key r ∈ (upsertOne key t s).map key := by
      intro r hr
      rw [upsertOne_map_key_of_mem key hs]
      exact h r (List.mem_cons_of_mem s hr)
    obtain ⟨hl, hk⟩ := ih (upsertOne key t s) hrest
    rw [upsertBulk_cons]
    constructor
    · rw [hl]
      exact upsertOne_length_of_mem key hs
    · rw [hk]
      exact upsertOne_map_key_of_mem key hs

/-- The overwrite map leaves every key-equality predicate unchanged. -/
theorem overwrite_pred_eq {R K : Type} [DecidableEq K] (key : R → K) (r : R) (k : K) :
    (fun x => decide (key x = k)) ∘ (fun x => if key x = key r then r else x)
      = fun x => decide (key x = k) := by
  funext x
  by_cases hx : key x = key r
  · simp only [Function.comp, if_pos hx]
    rw [hx]
  · simp [Function.comp, if_neg hx]

/-- Looking up the upserted key finds the new record. -/
theorem findRow_upsertOne_self {R K : Type} [DecidableEq K] (key : R → K) (t : List R)
    (r : R) : findRow key (upsertOne key t r) (key r) = some r := by
  unfold findRow upsertOne
  by_cases hm : key r ∈ t.map key
  · rw [if_pos hm, List.find?_map, overwrite_pred_eq key r (key r)]
    obtain ⟨x, hx, hkx⟩ := List.mem_map.mp hm
    have hsome : (t.find? fun y => decide (key y = key r)).isSome := by
      rw [List.find?_isSome]
      exact ⟨x, hx, by simp [hkx]⟩
    obtain ⟨y, hy⟩ := Option.isSome_iff_exists.mp hsome
    rw [hy]
    have hpy : key y = key r := by
      have := List.find?_some hy
      exact of_decide_eq_true this
    simp [hpy]
  · rw [if_neg hm, List.find?_append]
    have hnone : (t.find? fun y => decide (key y = key r)) = none := by
      rw [List.find?_eq_none]
      intro x hx hpx
      exact hm (List.mem_map.mpr ⟨x, hx, of_decide_eq_true hpx⟩)
    rw [hnone]
    simp [List.find?]

/-- Looking up any other key is unchanged by one upsert. -/
theorem findRow_upsertOne_other {R K : Type} [DecidableEq K] (key : R → K) (t : List R)
    (r : R) {k : K} (hk : k ≠ key r) :
    findRow key (upsertOne key t r) k = findRow key t k := by
  unfold findRow upsertOne
  have hdk : decide (key r = k) = false := by
    rw [decide_eq_false_iff_not]
    exact fun he => hk he.symm
  by_cases hm : key r ∈ t.map key
  · rw [if_pos hm, List.find?_map, overwrite_pred_eq key r k]
    cases hy : t.find? fun y => decide (key y = k) with
    | none => rfl
    | some y =>
      have hfind := List.find?_some hy
      have hpy : key y = k := of_decide_eq_true hfind
      have hyr : ¬(key y = key r) := by
        rw [hpy]
        exact hk
      simp [hyr]
  · rw [if_neg hm, List.find?_append]
    have hnone : List.find? (fun y => decide (key y = k)) [r] = none := by
      simp [List.find?, hdk]
    rw [hnone, Option.or_none]

/-- One upsert in lookup form. -/
theorem findRow_upsertOne {R K : Type} [DecidableEq K] (key : R → K) (t : List R) (r : R)
    (k : K) :
    findRow key (upsertOne key t r) k = if key r = k then some r else findRow key t k := by
  by_cases hk : key r = k
  · rw [if_pos hk, ← hk]
    exact findRow_upsertOne_self key t r
  · rw [if_neg hk]
    exact findRow_upsertOne_other key t r (fun he => hk he.symm)

/-- The stored row at a key after a bulk upsert, as a fold: records later
in the batch win, and keys the batch does not touch keep their prior row. -/
theorem findRow_upsertBulk {R K : Type} [DecidableEq K] (key : R → K) (k : K) (rs : List R) :
    ∀ t : List R,
      findRow key (upsertBulk key t rs) k =
        rs.foldl (fun acc r => if key r = k then some r else acc) (findRow key t k) := by
  induction rs with
  | nil => intro t; rfl
  | cons s rs ih =>
    intro t
    rw [upsertBulk_cons, ih (upsertOne key t s), findRow_upsertOne]
    rfl

/-- When some record of the batch carries the key, the fold forgets the
initial accumulator. -/
theorem foldl_lastWins_congr {R K : Type} [DecidableEq K] (key : R → K) (k : K)
    (rs : List R) :
    ∀ a b : Option R, (∃ r ∈ rs, key r = k) →
      rs.foldl (fun acc r => if key r = k then some r else acc) a =
        rs.foldl (fun acc r => if key r = k then some r else acc) b := by
  induction rs with
  | nil =>
    intro a b h
    obtain ⟨r, hr, _⟩ := h
    cases hr
  | cons s rs ih =>
    intro a b h
    rw [List.foldl_cons, List.foldl_cons]
    by_cases hs : key s = k
    · rw [if_pos hs, if_pos hs]
    · rw [if_neg hs, if_neg hs]
      obtain ⟨r, hr, hkr⟩ := h
      rcases List.mem_cons.mp hr with rfl | hmem
      · exact absurd hkr hs
      · exact ih a b ⟨r, hmem, hkr⟩

/-- When no record of the batch carries the key, the fold is the
identity. -/
theorem foldl_lastWins_id {R K : Type} [DecidableEq K] (key : R → K) (k : K) (rs : List R) :
    ∀ a : Option R, (∀ r ∈ rs, key r ≠ k) →
      rs.foldl (fun acc r => if key r = k then some r else acc) a = a := by
  induction rs with
  | nil => intro a _; rfl
  | cons s rs ih =>
    intro a h
    rw [List.foldl_cons, if_neg (h s (List.mem_cons_self s rs))]
    exact ih a (fun r hr => h r (List.mem_cons_of_mem s hr))

/-- Re-running a bulk upsert with the same batch keeps the row count and
the stored row at every key. -/
theorem upsertBulk_rerun {R K : Type} [DecidableEq K] (key : R → K) (t rs : List R) :
    (upsertBulk key (upsertBulk key t rs) rs).length = (upsertBulk key t rs).length ∧
    ∀ k, findRow key (upsertBulk key (upsertBulk key t rs) rs) k =
      findRow key (upsertBulk key t rs) k := by
  constructor
  · exact (upsertBulk_length_of_present key rs (upsertBulk key t rs)
      (fun r hr => keys_present_upsertBulk key rs t r hr)).1
  · intro k
    rw [findRow_upsertBulk key k rs (upsertBulk key t rs)]
    by_cases h : ∃ r ∈ rs, key r = k
    · rw [foldl_lastWins_congr key k rs _ (findRow key t k) h,
        ← findRow_upsertBulk key k rs t]
    · push_neg at h
      rw [foldl_lastWins_id key k rs _ (fun r hr => h r hr)]

/-- C2: re-running the same bulk metric upsert with the same records
leaves the table with the same row count and the same stored row at every
conflict key — the second run overwrites instead of adding rows — both
for the growth key (store_id, period, year_comparison) and for the
absolute key (store_id, period). -/
theorem c2_reupload_idempotent :
    (∀ t rs : List GrowthMetricRec,
      (upsertBulk growthKey (upsertBulk growthKey t rs) rs).length =
        (upsertBulk growthKey t rs).length ∧
      ∀ k, findRow growthKey (upsertBulk growthKey (upsertBulk growthKey t rs) rs) k =
        findRow growthKey (upsertBulk growthKey t rs) k) ∧
    (∀ t rs : List AbsoluteMetricRec,
      (upsertBulk absoluteKey (upsertBulk absoluteKey t rs) rs).length =
        (upsertBulk absoluteKey t rs).length ∧
      ∀ k, findRow absoluteKey (upsertBulk absoluteKey (upsertBulk absoluteKey t rs) rs) k =
        findRow absoluteKey (upsertBulk absoluteKey t rs) k) :=
  ⟨fun t rs => upsertBulk_rerun growthKey t rs, fun t rs => upsertBulk_rerun absoluteKey t rs⟩

end StoreDash
